import Mathlib

/-!
# Verification of the GenBI query-orchestration engine

Shallow embedding, in Lean 4, of the components of the `snowflake_agent`
repository that the specification's testable properties talk about:

* the Security Validator (`src/tools/sql_tools.py`,
  `SecurityValidatorTool._check_dangerous_operations` / `execute`);
* the complexity classifiers (`src/agents/sql_agent.py`,
  `SQLAgent._determine_complexity_level`, and `src/cost_optimization.py`,
  `QueryComplexityRouter.assess_complexity`);
* the result cache (`src/cost_optimization.py`, `ResultCacheManager`);
* heuristic relationship inference (`src/schema/discovery.py`,
  `SchemaDiscovery._infer_relationships`);
* the orchestrated BI workflow (`src/agents/orchestrator_agent.py`,
  `OrchestratorAgent._complete_bi_workflow` with its collaborators
  modelled as oracle parameters).

Python strings are modelled as Lean `String` / `List Char` (the inputs of
interest are ASCII; `Char.toUpper`/`Char.toLower` agree with Python's
`str.upper`/`str.lower` there).  Python dicts that the code mutates are
modelled as insertion-ordered association lists, matching CPython dict
semantics (assignment to an existing key keeps its position, a new key is
appended, `del` removes the key).  Wall-clock time (`time.time()`) is an
explicit `Nat` argument.  A Python statement that would raise leaves the
modelled state unchanged (no partial mutation happens before the raising
statement in the modelled code paths).
-/

namespace GenBI


/-! ## Generic string machinery shared by several components -/

/-- Word-constituent characters of the regex `\b` boundary (`[A-Za-z0-9_]`;
the keywords and queries of interest are ASCII). -/
def isWordChar (c : Char) : Bool :=
  c.isAlpha || c.isDigit || c = '_'

/-- Python `needle in haystack` substring test on character lists. -/
def containsSub (needle haystack : List Char) : Bool :=
  (List.range (haystack.length + 1)).any fun i => needle.isPrefixOf (haystack.drop i)

/-- Python `str.upper` (ASCII fragment). -/
def pyUpper (s : List Char) : List Char := s.map Char.toUpper

/-- Python `str.lower` (ASCII fragment). -/
def pyLower (s : List Char) : List Char := s.map Char.toLower

/-- A regex word boundary holds before/after the matched keyword when the
neighbouring character (if any) is not a word character. -/
def boundaryOk : Option Char → Bool
  | none => true
  | some c => !isWordChar c

/-- `re.search(r"\bKW\b", s)` at the current position: the keyword is a
prefix of `s` and the character right after it (if any) is not a word
character.  The left boundary is handled by the caller. -/
def matchHere (kw s : List Char) : Bool :=
  kw.isPrefixOf s && boundaryOk (s.drop kw.length).head?

/-- Scan of `re.search(r"\bKW\b", s)`: try to match at every position,
tracking the previous character for the left word boundary.  The keywords
searched for consist of word characters only, so `\b` before the keyword
holds iff the previous character (if any) is not a word character. -/
def searchWordAux (kw : List Char) (prev : Option Char) : List Char → Bool
  | [] => boundaryOk prev && matchHere kw []
  | c :: rest =>
    (boundaryOk prev && matchHere kw (c :: rest)) || searchWordAux kw (some c) rest

/-- `re.search(r"\bKW\b", s) is not None`. -/
def searchWord (kw s : List Char) : Bool :=
  searchWordAux kw none s

/-! ## Security Validator (`SecurityValidatorTool`, src/tools/sql_tools.py) -/

/-- The `dangerous_keywords` list of `_check_dangerous_operations`. -/
def dangerousKeywords : List String :=
  ["DROP", "DELETE", "UPDATE", "INSERT", "TRUNCATE", "ALTER",
   "CREATE", "GRANT", "REVOKE", "EXEC", "EXECUTE", "CALL"]

/-- `SecurityValidatorTool._check_dangerous_operations`: uppercase the SQL,
collect every keyword that matches `\bKEYWORD\b`. -/
def checkDangerousOperations (sqlQuery : String) : List String :=
  dangerousKeywords.filter fun kw => searchWord kw.data (pyUpper sqlQuery.data)

/-- The fields of the validator's `validation_result` that later decisions
read (`is_secure`, `blocked_operations`, `issues`); the advisory
`warnings`/`recommendations`/`security_level` fields never influence
`is_secure` or `blocked_operations` and are not modelled. -/
structure ValidationResult where
  is_secure : Bool
  blocked_operations : List String
  issues : List String
  deriving Repr, DecidableEq

/-- The dangerous-operations logic of `SecurityValidatorTool.execute`:
start from `is_secure=True, blocked_operations=[]`; if
`_check_dangerous_operations` returns a non-empty list, set
`is_secure=False`, record the list in `blocked_operations` and append the
issue message. -/
def securityValidatorCheck (sqlQuery : String) : ValidationResult :=
  let dangerousOps := checkDangerousOperations sqlQuery
  if dangerousOps.isEmpty then
    { is_secure := true, blocked_operations := [], issues := [] }
  else
    { is_secure := false
      blocked_operations := dangerousOps
      issues := ["Query contains dangerous operations"] }

/-! ## Complexity classifiers

`SQLAgent._determine_complexity_level` (src/agents/sql_agent.py) and
`QueryComplexityRouter.assess_complexity` (src/cost_optimization.py). -/

/-- Number of words of Python `len(question.split())`: maximal runs of
non-whitespace characters. -/
def countWordsAux (inWord : Bool) : List Char → Nat
  | [] => 0
  | c :: rest =>
    if c.isWhitespace then countWordsAux false rest
    else (if inWord then 0 else 1) + countWordsAux true rest

def countWords (s : List Char) : Nat := countWordsAux false s

/-- Auxiliary scan for `pyCount`, structurally recursive on a fuel bound
(the fuel is at least the list length at every call, so it never runs
out). -/
def pyCountAux (needle : List Char) : Nat → List Char → Nat
  | 0, _ => 0
  | _ + 1, [] => 0
  | fuel + 1, c :: rest =>
    if needle.isPrefixOf (c :: rest) then
      1 + pyCountAux needle fuel (rest.drop (needle.length - 1))
    else
      pyCountAux needle fuel rest

/-- Python `haystack.count(needle)` for a non-empty needle: number of
non-overlapping occurrences, scanning left to right. -/
def pyCount (needle haystack : List Char) : Nat :=
  pyCountAux needle haystack.length haystack

/-- `simple_indicators` of `SQLAgent._determine_complexity_level`. -/
def simpleIndicators : List String :=
  ["total", "sum", "count", "average", "max", "min"]

/-- `complex_indicators` of `SQLAgent._determine_complexity_level`. -/
def complexIndicators : List String :=
  ["compare", "trend", "growth", "year over year", "correlation",
   "top", "bottom", "rank", "percentile", "moving average",
   "pivot", "cross-tab", "breakdown by"]

/-- `advanced_indicators` of `SQLAgent._determine_complexity_level`. -/
def advancedIndicators : List String :=
  ["cohort", "funnel", "attribution", "statistical",
   "regression", "forecasting", "anomaly", "clustering"]

/-- `SQLAgent._determine_complexity_level`: keyword priority
advanced > complex > simple, defaulting to `"medium"`; each indicator is a
case-insensitive substring test against the question. -/
def determineComplexityLevel (question : String) : String :=
  if advancedIndicators.any (fun i => containsSub i.data (pyLower question.data)) then
    "advanced"
  else if complexIndicators.any (fun i => containsSub i.data (pyLower question.data)) then
    "medium"
  else if simpleIndicators.any (fun i => containsSub i.data (pyLower question.data)) then
    "simple"
  else
    "medium"

/-- `simple_indicators` of `QueryComplexityRouter.assess_complexity`. -/
def routerSimpleIndicators : List String :=
  ["count", "total", "sum", "how many", "show me", "list all"]

/-- `complex_indicators` of `QueryComplexityRouter.assess_complexity`. -/
def routerComplexIndicators : List String :=
  ["compare", "analyze", "trend", "correlation", "predict",
   "percentage", "ratio", "join", "group by", "having"]

/-- `QueryComplexityRouter.assess_complexity`: scores are the number of
matching indicators; `"complex"` needs a complex score above one, or more
than one `and`/`or` substring occurrence, or more than twenty words;
`"simple"` needs a positive simple score, a zero complex score and fewer
than ten words; otherwise `"moderate"`.  (The unused `schema_size`
parameter is omitted.) -/
def assessComplexity (question : String) : String :=
  let ql := pyLower question.data
  let simpleScore := (routerSimpleIndicators.filter fun i => containsSub i.data ql).length
  let complexScore := (routerComplexIndicators.filter fun i => containsSub i.data ql).length
  let wordCount := countWords question.data
  let conjCount := pyCount "and".data ql + pyCount "or".data ql
  if 1 < complexScore ∨ 1 < conjCount ∨ 20 < wordCount then "complex"
  else if 0 < simpleScore ∧ complexScore = 0 ∧ wordCount < 10 then "simple"
  else "moderate"

/-! ## Result cache (`ResultCacheManager`, src/cost_optimization.py)

The two Python dicts `self.cache` and `self.cache_timestamps` are
modelled as insertion-ordered association lists; `time.time()` is an
explicit `now : Nat` argument.  A cached value (`List[Dict]`) is a list
of rows, each row a list of column/scalar pairs. -/

/-- One result row (`Dict[str, str]`-shaped). -/
abbrev CacheRow := List (String × String)

/-- A cached query result (`List[Dict]`). -/
abbrev CacheValue := List CacheRow

/-- `key in d` for an insertion-ordered dict. -/
def dictContains (l : List (String × α)) (k : String) : Bool :=
  l.any fun p => p.1 == k

/-- `d[key]` lookup (first binding). -/
def dictGet? (l : List (String × α)) (k : String) : Option α :=
  (l.find? fun p => p.1 == k).map (·.2)

/-- `d[key] = v`: an existing key keeps its position, a new key is
appended (CPython dict semantics). -/
def dictSet (l : List (String × α)) (k : String) (v : α) : List (String × α) :=
  if dictContains l k then l.map fun p => if p.1 == k then (k, v) else p
  else l ++ [(k, v)]

/-- `del d[key]`. -/
def dictDel (l : List (String × α)) (k : String) : List (String × α) :=
  l.filter fun p => !(p.1 == k)

/-- Inner loop of `min(keys, key=lambda k: ts[k])`: keep the current best
key, replacing it only on a strictly smaller timestamp — Python's `min`
returns the first of equally-minimal items. -/
def argminGo (bk : String) (bt : Nat) : List (String × Nat) → String
  | [] => bk
  | (k, t) :: rest => if t < bt then argminGo k t rest else argminGo bk bt rest

/-- `min(self.cache_timestamps.keys(), key=lambda k: self.cache_timestamps[k])`;
`none` models the `ValueError` Python raises on an empty dict. -/
def argminTimestamp : List (String × Nat) → Option String
  | [] => none
  | (k, t) :: rest => some (argminGo k t rest)

/-- Whitespace-split of Python `str.split()` (no argument: runs of
whitespace separate words, no empty words). -/
def pySplitAux : List Char → List Char → List (List Char)
  | cur, [] => if cur.isEmpty then [] else [cur.reverse]
  | cur, c :: rest =>
    if c.isWhitespace then
      if cur.isEmpty then pySplitAux [] rest else cur.reverse :: pySplitAux [] rest
    else pySplitAux (c :: cur) rest

def pySplit (s : List Char) : List (List Char) := pySplitAux [] s

/-- `ResultCacheManager.get_cache_key`: `' '.join(sql.lower().split())`.
The source then takes the md5 hex digest of this normalized text; the md5
step is omitted and the normalized text itself is used as the key — every
claim depends only on equality of keys, which md5 preserves on the inputs
considered. -/
def getCacheKey (sql : String) : String :=
  ⟨List.intercalate [' '] (pySplit (pyLower sql.data))⟩

/-- The mutable state of `ResultCacheManager`. -/
structure ResultCacheManager where
  cache : List (String × CacheValue)
  cache_timestamps : List (String × Nat)
  max_cache_size : Nat
  ttl_seconds : Nat
  deriving Repr, DecidableEq

/-- `ResultCacheManager.__init__`. -/
def initCache (maxCacheSize ttlSeconds : Nat) : ResultCacheManager :=
  { cache := [], cache_timestamps := [], max_cache_size := maxCacheSize,
    ttl_seconds := ttlSeconds }

/-- `ResultCacheManager.get_cached_result`, returning the looked-up value
and the successor state.  When the key is present but older than the TTL,
both dict entries are deleted during the lookup and `None` is returned.
(The impossible-under-the-invariant case of a key present in `cache` but
missing from `cache_timestamps` would raise `KeyError` before any
mutation; it is modelled as no result and an unchanged state.) -/
def getCachedResult (s : ResultCacheManager) (now : Nat) (sql : String) :
    Option CacheValue × ResultCacheManager :=
  match dictGet? s.cache (getCacheKey sql) with
  | none => (none, s)
  | some v =>
    match dictGet? s.cache_timestamps (getCacheKey sql) with
    | none => (none, s)
    | some t =>
      if s.ttl_seconds < now - t then
        (none, { s with cache := dictDel s.cache (getCacheKey sql),
                        cache_timestamps := dictDel s.cache_timestamps (getCacheKey sql) })
      else
        (some v, s)

/-- `ResultCacheManager.cache_result`: when the cache has reached
capacity, evict the key with the smallest timestamp from both dicts, then
store the new binding in both.  (`min` over an empty timestamp dict, or a
`del` of a key absent from `cache`, would raise before any mutation; both
are modelled as an unchanged state.) -/
def cacheResult (s : ResultCacheManager) (now : Nat) (sql : String)
    (result : CacheValue) : ResultCacheManager :=
  if s.max_cache_size ≤ s.cache.length then
    match argminTimestamp s.cache_timestamps with
    | none => s
    | some oldest =>
      if dictContains s.cache oldest then
        { s with
          cache := dictSet (dictDel s.cache oldest) (getCacheKey sql) result
          cache_timestamps :=
            dictSet (dictDel s.cache_timestamps oldest) (getCacheKey sql) now }
      else s
  else
    { s with
      cache := dictSet s.cache (getCacheKey sql) result
      cache_timestamps := dictSet s.cache_timestamps (getCacheKey sql) now }

/-- One cache operation: a lookup or an insertion. -/
inductive CacheOp where
  | get (now : Nat) (sql : String)
  | put (now : Nat) (sql : String) (result : CacheValue)
  deriving Repr, DecidableEq

def applyCacheOp (s : ResultCacheManager) : CacheOp → ResultCacheManager
  | .get now sql => (getCachedResult s now sql).2
  | .put now sql result => cacheResult s now sql result

def runCacheOps (s : ResultCacheManager) (ops : List CacheOp) : ResultCacheManager :=
  ops.foldl applyCacheOp s

/-- The keys of an association-list dict, in insertion order. -/
def keysOf (l : List (String × α)) : List String := l.map Prod.fst

/-! ### The cache state invariant (C10) -/

/-- The internal invariant of `ResultCacheManager`: both dicts hold the
same keys in the same order, the keys are distinct, and the entry count
is within the configured bound. -/
def CacheInv (s : ResultCacheManager) : Prop :=
  keysOf s.cache = keysOf s.cache_timestamps ∧
  (keysOf s.cache).Nodup ∧
  s.cache.length ≤ s.max_cache_size

/-! ## Relationship inference (`SchemaDiscovery._infer_relationships`,
src/schema/discovery.py)

Only the fields the inference reads are modelled on `Column`/`Table`
(`name`, `data_type`, `is_primary_key`, `columns`); the
`column.is_foreign_key = True` side effect does not influence the
returned relationship list and is not modelled. -/

inductive RelationshipType where
  | one_to_one
  | one_to_many
  | many_to_one
  | many_to_many
  deriving Repr, DecidableEq

structure Column where
  name : String
  data_type : String
  is_primary_key : Bool
  deriving Repr, DecidableEq

structure Table where
  name : String
  columns : List Column
  deriving Repr, DecidableEq

structure Relationship where
  source_table : String
  target_table : String
  source_column : String
  target_column : String
  relationship_type : RelationshipType
  name : Option String
  description : String
  is_enforced : Bool
  deriving Repr, DecidableEq

/-- Python `s.endswith(suffix)`. -/
def strEndsWith (s suffix : List Char) : Bool := suffix.isSuffixOf s

/-- The `target_variations` list built for a `_id`-suffixed column name:
`potential_target = column.name[:-3]`, then, in order, the uppercased
stripped name, its plural (`+ 'S'`), its singular (`[:-1]`, only when the
original-case stripped name ends in an uppercase `'S'`), `+ '_DIM'` and
`+ '_MASTER'`.  `none` models the `None` placeholder the Python list
holds when the singular variant does not apply. -/
def targetVariations (columnName : List Char) : List (Option (List Char)) :=
  let potential := columnName.take (columnName.length - 3)
  let up := pyUpper potential
  [some up,
   some (up ++ "S".data),
   if strEndsWith potential "S".data then some (up.take (up.length - 1)) else none,
   some (up ++ "_DIM".data),
   some (up ++ "_MASTER".data)]

/-- `table_by_name = {table.name: table for table in tables}` followed by
lookup: a later table with a duplicate name overwrites an earlier one. -/
def tableByName (tables : List Table) (n : List Char) : Option Table :=
  tables.reverse.find? fun t => t.name.data == n

/-- The `for variation in target_variations` loop up to its hit: the first
non-`None` variation naming an existing table. -/
def findFirstVariation (tables : List Table) (vars : List (Option (List Char))) :
    Option (List Char) :=
  vars.findSome? fun ov => ov.bind fun v =>
    if (tableByName tables v).isSome then some v else none

/-- The target-column scan: the first column of the target table that
is a primary key or whose uppercased name is `ID` or `<variation>_ID`. -/
def findTargetColumn (tt : Table) (variation : List Char) : Option Column :=
  tt.columns.find? fun tc =>
    tc.is_primary_key ||
      (pyUpper tc.name.data == "ID".data || pyUpper tc.name.data == variation ++ "_ID".data)

/-- The body of `_infer_relationships` for one column: at most one
relationship; after the first variation matching an existing table the
loop `break`s whether or not a target column was found. -/
def inferForColumn (tables : List Table) (t : Table) (c : Column) : Option Relationship :=
  if strEndsWith (pyUpper c.name.data) "_ID".data && !c.is_primary_key then
    match findFirstVariation tables (targetVariations c.name.data) with
    | none => none
    | some v =>
      match tableByName tables v with
      | none => none
      | some tt =>
        match findTargetColumn tt v with
        | none => none
        | some tc =>
          some { source_table := t.name, target_table := tt.name,
                 source_column := c.name, target_column := tc.name,
                 relationship_type := RelationshipType.many_to_one,
                 name := none,
                 description := "Inferred from naming pattern: " ++ c.name,
                 is_enforced := false }
  else none

/-- `SchemaDiscovery._infer_relationships`: tables in order, columns in
order, collecting the per-column inferred relationship when there is
one. -/
def inferRelationships (tables : List Table) : List Relationship :=
  tables.flatMap fun t => t.columns.filterMap (inferForColumn tables t)

/-! ## The orchestrated BI workflow
(`OrchestratorAgent._complete_bi_workflow`, src/agents/orchestrator_agent.py)

The collaborators are oracle parameters: the schema-context step outcome
(`_ensure_schema_context`), the SQL-generation outcome
(`_generate_sql_with_retries`), the raw text the `nl_to_sql` collaborator
produces during the single repair attempt (`None` when that generation
fails), and the query executor indexed by how many executor calls the run
has already made.  The workflow's side effects — the ordered
`workflow_log` step names and the SQL texts submitted to the executor —
are returned as explicit fields. -/

/-- Outcome of one `_execute_sql_safely` call: `success` status, the rows
on success, the error message on failure. -/
structure ExecOutcome where
  success : Bool
  rows : List CacheRow
  error : String
  deriving Repr, DecidableEq

/-- Outcome of `_ensure_schema_context` as the orchestrator reads it. -/
structure ContextResult where
  status : String
  context : String
  deriving Repr, DecidableEq

/-- Outcome of `_generate_sql_with_retries` as the orchestrator reads it. -/
structure GenResult where
  status : String
  final_sql : String
  deriving Repr, DecidableEq

/-- The result dict of `SQLAgent._fix_sql`. -/
structure FixResult where
  status : String
  corrected_sql : Option String
  security_validation : Option ValidationResult
  deriving Repr, DecidableEq

/-- `SQLAgent._fix_sql`, given the corrected SQL text produced by the
`nl_to_sql` collaborator for the repair prompt (`none` = that generation
failed).  On generation success the method runs the security validator on
the corrected SQL and stores its result in `security_validation`, but
returns `status='success'` regardless of `is_secure` — the validator
outcome is never checked on this path (unlike `_generate_sql`, which
returns an error when `is_secure` is false). -/
def fixSql (nlCorrected : Option String) : FixResult :=
  match nlCorrected with
  | none =>
    { status := "error", corrected_sql := none, security_validation := none }
  | some sql =>
    { status := "success", corrected_sql := some sql,
      security_validation := some (securityValidatorCheck sql) }

/-- The observable outcome of one `_complete_bi_workflow` run: status,
message, the final SQL (on success), the rows, the ordered step names
appended to `workflow_log`, and the SQL texts submitted to the query
executor in order. -/
structure WorkflowResult where
  status : String
  message : String
  sql_query : Option String
  results : List CacheRow
  log : List String
  execCalls : List String
  deriving Repr, DecidableEq

/-- `OrchestratorAgent._complete_bi_workflow`: resolve context (fatal on
non-success), generate SQL (fatal on non-success), execute; on execution
failure attempt exactly one repair (`_attempt_sql_fix` =
`SQLAgent._fix_sql`), and if the repair reports success re-execute the
corrected SQL; if execution still has not succeeded, fail with
"SQL execution failed after retry".  Analysis (non-fatal, result unread
for status purposes) runs when enabled and rows are non-empty, adding an
`analysis` log step. -/
def completeBIWorkflow (ctx : ContextResult) (gen : GenResult)
    (fixNl : Option String) (exec : Nat → String → ExecOutcome)
    (includeAnalysis : Bool) : WorkflowResult :=
  if ctx.status = "success" then
    if gen.status = "success" then
      if (exec 0 gen.final_sql).success then
        { status := "success", message := "BI workflow completed successfully",
          sql_query := some gen.final_sql, results := (exec 0 gen.final_sql).rows,
          log := ["schema_context", "sql_generation", "sql_execution"] ++
            (if includeAnalysis && !(exec 0 gen.final_sql).rows.isEmpty then
              ["analysis"] else []),
          execCalls := [gen.final_sql] }
      else
        if (fixSql fixNl).status = "success" then
          match (fixSql fixNl).corrected_sql with
          | some fixedSql =>
            if (exec 1 fixedSql).success then
              { status := "success", message := "BI workflow completed successfully",
                sql_query := some fixedSql, results := (exec 1 fixedSql).rows,
                log := ["schema_context", "sql_generation", "sql_execution",
                        "sql_fix_attempt", "sql_execution_retry"] ++
                  (if includeAnalysis && !(exec 1 fixedSql).rows.isEmpty then
                    ["analysis"] else []),
                execCalls := [gen.final_sql, fixedSql] }
            else
              { status := "error", message := "SQL execution failed after retry",
                sql_query := none, results := [],
                log := ["schema_context", "sql_generation", "sql_execution",
                        "sql_fix_attempt", "sql_execution_retry"],
                execCalls := [gen.final_sql, fixedSql] }
          | none =>
            { status := "error", message := "SQL execution failed after retry",
              sql_query := none, results := [],
              log := ["schema_context", "sql_generation", "sql_execution",
                      "sql_fix_attempt"],
              execCalls := [gen.final_sql] }
        else
          { status := "error", message := "SQL execution failed after retry",
            sql_query := none, results := [],
            log := ["schema_context", "sql_generation", "sql_execution",
                    "sql_fix_attempt"],
            execCalls := [gen.final_sql] }
    else
      { status := "error", message := "Failed to generate SQL", sql_query := none,
        results := [], log := ["schema_context", "sql_generation"], execCalls := [] }
  else
    { status := "error", message := "Failed to get schema context", sql_query := none,
      results := [], log := ["schema_context"], execCalls := [] }

/-! ### Security re-validation of repaired SQL (C3) -/

/-- The executor behaviour for the C3 scenario: the first call fails, any
later call succeeds and returns one row. -/
def insecureRepairExec : Nat → String → ExecOutcome :=
  fun n _ =>
    if n = 0 then ExecOutcome.mk false [] "object-not-found"
    else ExecOutcome.mk true [[("COUNT", "1")]] ""

/-- The C3 scenario run: generation produced `SELECT * FROM ORDERS`, the
first execution failed, and the repair collaborator returned
`DROP TABLE USERS`. -/
def insecureRepairRun : WorkflowResult :=
  completeBIWorkflow (ContextResult.mk "success" "SCHEMA CONTEXT")
    (GenResult.mk "success" "SELECT * FROM ORDERS")
    (some "DROP TABLE USERS") insecureRepairExec true

/-! ### Context resolution with an empty catalog (C4) -/

/-- The dict `SchemaDiscoveryTool.execute` returns when the metadata feed
lists no tables: `{'discovered_tables': [], 'message': 'No tables found'}`
— note it carries NO `status` key. -/
structure DiscoveryToolResult where
  status : Option String
  discovered_tables : List Table
  deriving Repr, DecidableEq

def discoveryToolEmptyFeed : DiscoveryToolResult :=
  { status := none, discovered_tables := [] }

/-- `SchemaAgent._discover_schema` on an empty feed: the agent checks
`discovery_result.get('status') == 'error'`; the status-less empty-feed
dict does not match, so the agent proceeds (relationship mapping over no
tables) and reports success. -/
def schemaAgentDiscoverEmptyStatus : String :=
  if discoveryToolEmptyFeed.status = some "error" then "error" else "success"

/-- The four default business rules
(`SemanticCatalogTool._add_default_business_context`); with no tables, no
metrics are added and these rules are the only catalog content. -/
def defaultBusinessRules : List String :=
  ["All monetary amounts should be in USD unless specified otherwise",
   "Date filters should respect business calendar (exclude weekends for business metrics)",
   "Customer data should be filtered to exclude test accounts when analyzing production metrics",
   "Historical comparisons should use same-period-last-year unless specified otherwise"]

/-- `SemanticLayer.get_context_for_llm` on the catalog built from an
empty feed: the glossary/metrics/joins sections are skipped (empty), the
schema section header is emitted with no tables, and the business-rules
section lists the four default rules. -/
def emptyCatalogContext : String :=
  String.intercalate "\n"
    ("=== DATABASE SCHEMA ===" ::
     "\n=== BUSINESS RULES ===" ::
     defaultBusinessRules.map (fun r => "- " ++ r))

/-- `SchemaAgent._get_context_for_query` on a fresh agent whose discovery
feed is empty: an empty `query_text` is an error; otherwise the catalog
build succeeds (empty feed included), table suggestions over no tables
are empty, the full (rules-only) context is rendered, and the agent
returns success. -/
def schemaAgentGetContextEmptyCatalog (queryText : String) : ContextResult :=
  if queryText = "" then
    { status := "error", context := "" }
  else if schemaAgentDiscoverEmptyStatus = "error" then
    { status := "error", context := "" }
  else
    { status := "success", context := emptyCatalogContext }

/-! ### Lemmas leading to the C1 theorem -/

theorem isPrefixOf_append_self (kw b : List Char) : kw.isPrefixOf (kw ++ b) = true := by
  induction kw with
  | nil => simp [List.isPrefixOf]
  | cons c kw ih => simp [List.isPrefixOf, ih]

theorem matchHere_append (kw b : List Char) (hb : boundaryOk b.head? = true) :
    matchHere kw (kw ++ b) = true := by
  unfold matchHere
  rw [List.drop_left, isPrefixOf_append_self, hb]
  rfl

theorem searchWordAux_or (kw : List Char) (prev : Option Char) (l : List Char)
    (h : (boundaryOk prev && matchHere kw l) = true) :
    searchWordAux kw prev l = true := by
  cases l with
  | nil => exact h
  | cons c rest => unfold searchWordAux; rw [h]; rfl

theorem searchWordAux_of_split (kw b : List Char) (hb : boundaryOk b.head? = true) :
    ∀ (a : List Char) (prev : Option Char),
      (a = [] → boundaryOk prev = true) →
      (∀ c, a.getLast? = some c → isWordChar c = false) →
      searchWordAux kw prev (a ++ (kw ++ b)) = true := by
  intro a
  induction a with
  | nil =>
    intro prev hnil _
    have hprev := hnil rfl
    refine searchWordAux_or kw prev (kw ++ b) ?_
    rw [hprev, matchHere_append kw b hb]
    rfl
  | cons c a ih =>
    intro prev _ hlast
    show searchWordAux kw prev (c :: (a ++ (kw ++ b))) = true
    unfold searchWordAux
    have htail : searchWordAux kw (some c) (a ++ (kw ++ b)) = true := by
      refine ih (some c) ?_ ?_
      · intro ha
        subst ha
        have : isWordChar c = false := hlast c rfl
        simp [boundaryOk, this]
      · intro c' hc'
        refine hlast c' ?_
        cases a with
        | nil => simp at hc'
        | cons d a' => rw [List.getLast?_cons_cons]; exact hc'
    rw [htail]
    simp

theorem searchWord_of_split (kw a b : List Char)
    (ha : a = [] ∨ ∃ c, a.getLast? = some c ∧ isWordChar c = false)
    (hb : b = [] ∨ ∃ c, b.head? = some c ∧ isWordChar c = false) :
    searchWord kw (a ++ (kw ++ b)) = true := by
  have hbB : boundaryOk b.head? = true := by
    rcases hb with rfl | ⟨c, hc, hw⟩
    · rfl
    · rw [hc]; simp [boundaryOk, hw]
  refine searchWordAux_of_split kw b hbB a none ?_ ?_
  · intro _; rfl
  · intro c hc
    rcases ha with rfl | ⟨c', hc', hw⟩
    · simp at hc
    · rw [hc'] at hc
      cases hc
      exact hw

/-- An ASCII whitespace character is unchanged by `Char.toUpper` and is not
a word character. -/
theorem whitespace_toUpper_not_word (c : Char) (h : c.isWhitespace = true) :
    Char.toUpper c = c ∧ isWordChar c = false := by
  have h4 : ((c = ' ' ∨ c = '\t') ∨ c = '\r') ∨ c = '\n' := by
    simpa [Char.isWhitespace] using h
  rcases h4 with ((rfl | rfl) | rfl) | rfl <;> exact ⟨by decide, by decide⟩

/--
**C1.** For every SQL string containing a dangerous keyword (`DROP`,
`DELETE`, `UPDATE`, `INSERT`, `ALTER`, `TRUNCATE`, `GRANT`, …) as a
standalone token — in any letter case, with whitespace (or the string
boundary) on both sides — the Security Validator's result has
`is_secure = false` and the (uppercased) keyword listed in
`blocked_operations`.
-/
theorem securityValidator_blocks_dangerous (sql : String) (kw : String)
    (pre mid post : List Char)
    (hkw : kw ∈ dangerousKeywords)
    (hsplit : sql.data = pre ++ mid ++ post)
    (hmid : pyUpper mid = kw.data)
    (hpre : pre = [] ∨ ∃ c, pre.getLast? = some c ∧ c.isWhitespace = true)
    (hpost : post = [] ∨ ∃ c, post.head? = some c ∧ c.isWhitespace = true) :
    (securityValidatorCheck sql).is_secure = false ∧
      kw ∈ (securityValidatorCheck sql).blocked_operations := by
  have hsearch : searchWord kw.data (pyUpper sql.data) = true := by
    have hup : pyUpper sql.data = pyUpper pre ++ (kw.data ++ pyUpper post) := by
      rw [hsplit]
      simp only [pyUpper, List.map_append, List.append_assoc, hmid]
      rw [← hmid]
      rfl
    rw [hup]
    refine searchWord_of_split kw.data (pyUpper pre) (pyUpper post) ?_ ?_
    · rcases hpre with rfl | ⟨c, hc, hw⟩
      · exact Or.inl rfl
      · refine Or.inr ⟨Char.toUpper c, ?_, ?_⟩
        · rw [pyUpper, List.getLast?_map, hc]; rfl
        · rcases whitespace_toUpper_not_word c hw with ⟨he, hnw⟩
          rw [he]; exact hnw
    · rcases hpost with rfl | ⟨c, hc, hw⟩
      · exact Or.inl rfl
      · refine Or.inr ⟨Char.toUpper c, ?_, ?_⟩
        · rw [pyUpper, List.head?_map, hc]; rfl
        · rcases whitespace_toUpper_not_word c hw with ⟨he, hnw⟩
          rw [he]; exact hnw
  have hmem : kw ∈ checkDangerousOperations sql := by
    rw [checkDangerousOperations, List.mem_filter]
    exact ⟨hkw, hsearch⟩
  have hne : (checkDangerousOperations sql).isEmpty = false := by
    cases hops : checkDangerousOperations sql with
    | nil => rw [hops] at hmem; simp at hmem
    | cons x xs => rfl
  constructor
  · rw [securityValidatorCheck]
    simp only [hne]
    rfl
  · rw [securityValidatorCheck]
    simp only [hne]
    simpa using hmem

/-- Witness for C1: `"drop table users"` (lowercase, keyword at the start,
whitespace after) is rejected with `DROP` blocked. -/
theorem securityValidator_blocks_dangerous_witness :
    (securityValidatorCheck "drop table users").is_secure = false ∧
      "DROP" ∈ (securityValidatorCheck "drop table users").blocked_operations :=
  securityValidator_blocks_dangerous "drop table users" "DROP"
    [] "drop".data " table users".data
    (by decide)
    (by decide)
    (by decide)
    (Or.inl rfl)
    (Or.inr ⟨' ', by decide, by decide⟩)

set_option maxRecDepth 8192 in
/--
**C9, counterexample.**  The claim's general rule says: with no advanced
keyword, more than twenty words imply a `complex`/`medium` classification.
But `_determine_complexity_level` ignores word counts: the 26-word
question below contains the simple keyword `total`, no advanced keyword
and no complex keyword, and is classified `"simple"`.  Moreover the
claim's example "cohort retention forecasting" classifies as `advanced`
only under `_determine_complexity_level`; the router
(`assess_complexity`) has no advanced tier and returns `"complex"` for it
(two `or` substrings, in "coh**or**t" and "f**or**ecasting").
-/
theorem complexity_claim_counterexample :
    determineComplexityLevel
        "please give me the total of all the sales that we made in each of the last five weeks of the year listed week by week"
      = "simple" ∧
    20 < countWords
        "please give me the total of all the sales that we made in each of the last five weeks of the year listed week by week".data ∧
    (advancedIndicators.all fun i =>
      !containsSub i.data (pyLower
        "please give me the total of all the sales that we made in each of the last five weeks of the year listed week by week".data)) = true ∧
    assessComplexity "cohort retention forecasting" = "complex" := by
  refine ⟨by decide, by decide, by decide, by decide⟩

/--
**C9, amended.**  The three example classifications hold for
`_determine_complexity_level` ("total sales" → simple, "compare year over
year growth by region" → medium, "cohort retention forecasting" →
advanced), and in general `_determine_complexity_level` is governed by
keyword sets alone with priority advanced > complex > simple and default
medium, regardless of conjunction or word counts (those factors exist
only in the router `assess_complexity`, which returns
complex/simple/moderate).
-/
theorem complexity_classifier_amended :
    determineComplexityLevel "total sales" = "simple" ∧
    determineComplexityLevel "compare year over year growth by region" = "medium" ∧
    determineComplexityLevel "cohort retention forecasting" = "advanced" ∧
    ∀ q : String,
      ((∃ i ∈ advancedIndicators, containsSub i.data (pyLower q.data) = true) →
        determineComplexityLevel q = "advanced") ∧
      ((∀ i ∈ advancedIndicators, containsSub i.data (pyLower q.data) = false) →
       (∃ i ∈ complexIndicators, containsSub i.data (pyLower q.data) = true) →
        determineComplexityLevel q = "medium") ∧
      ((∀ i ∈ advancedIndicators, containsSub i.data (pyLower q.data) = false) →
       (∀ i ∈ complexIndicators, containsSub i.data (pyLower q.data) = false) →
       (∃ i ∈ simpleIndicators, containsSub i.data (pyLower q.data) = true) →
        determineComplexityLevel q = "simple") ∧
      ((∀ i ∈ advancedIndicators, containsSub i.data (pyLower q.data) = false) →
       (∀ i ∈ complexIndicators, containsSub i.data (pyLower q.data) = false) →
       (∀ i ∈ simpleIndicators, containsSub i.data (pyLower q.data) = false) →
        determineComplexityLevel q = "medium") := by
  refine ⟨by decide, by decide, by decide, fun q => ⟨?_, ?_, ?_, ?_⟩⟩
  · rintro ⟨i, hi, hc⟩
    have hadv : (advancedIndicators.any fun i => containsSub i.data (pyLower q.data)) = true :=
      List.any_eq_true.mpr ⟨i, hi, hc⟩
    simp [determineComplexityLevel, hadv]
  · intro hadv hcplx
    have ha : (advancedIndicators.any fun i => containsSub i.data (pyLower q.data)) = false := by
      simp only [List.any_eq_false]
      intro i hi
      simp [hadv i hi]
    rcases hcplx with ⟨i, hi, hc⟩
    have hb : (complexIndicators.any fun i => containsSub i.data (pyLower q.data)) = true :=
      List.any_eq_true.mpr ⟨i, hi, hc⟩
    simp [determineComplexityLevel, ha, hb]
  · intro hadv hcplx hsimp
    have ha : (advancedIndicators.any fun i => containsSub i.data (pyLower q.data)) = false := by
      simp only [List.any_eq_false]
      intro i hi
      simp [hadv i hi]
    have hb : (complexIndicators.any fun i => containsSub i.data (pyLower q.data)) = false := by
      simp only [List.any_eq_false]
      intro i hi
      simp [hcplx i hi]
    rcases hsimp with ⟨i, hi, hc⟩
    have hc' : (simpleIndicators.any fun i => containsSub i.data (pyLower q.data)) = true :=
      List.any_eq_true.mpr ⟨i, hi, hc⟩
    simp [determineComplexityLevel, ha, hb, hc']
  · intro hadv hcplx hsimp
    have ha : (advancedIndicators.any fun i => containsSub i.data (pyLower q.data)) = false := by
      simp only [List.any_eq_false]
      intro i hi
      simp [hadv i hi]
    have hb : (complexIndicators.any fun i => containsSub i.data (pyLower q.data)) = false := by
      simp only [List.any_eq_false]
      intro i hi
      simp [hcplx i hi]
    have hc : (simpleIndicators.any fun i => containsSub i.data (pyLower q.data)) = false := by
      simp only [List.any_eq_false]
      intro i hi
      simp [hsimp i hi]
    simp [determineComplexityLevel, ha, hb, hc]

/-- Witness for the amended C9: the universally quantified part applied to
a concrete question containing an advanced keyword. -/
theorem complexity_classifier_amended_witness :
    determineComplexityLevel "weekly cohort of signups" = "advanced" :=
  (complexity_classifier_amended.2.2.2 "weekly cohort of signups").1
    ⟨"cohort", by decide, by decide⟩

/-! ### Association-list dictionary lemmas -/

theorem keysOf_dictDel (l : List (String × α)) (k : String) :
    keysOf (dictDel l k) = (keysOf l).filter fun x => !(x == k) := by
  induction l with
  | nil => rfl
  | cons p rest ih =>
    simp only [dictDel, keysOf, List.filter_cons, List.map_cons] at *
    cases hpk : (p.1 == k) <;> simp [hpk, ih]

theorem keysOf_map_replace (l : List (String × α)) (k : String) (v : α) :
    keysOf (l.map fun p => if p.1 == k then (k, v) else p) = keysOf l := by
  induction l with
  | nil => rfl
  | cons p rest ih =>
    simp only [keysOf, List.map_cons] at *
    cases hpk : (p.1 == k) with
    | false =>
      simp only [hpk, Bool.false_eq_true, if_false]
      rw [ih]
    | true =>
      have hk : p.1 = k := by simpa using hpk
      simp only [hpk, if_true]
      rw [ih, hk]

theorem dictContains_eq_any_keys (l : List (String × α)) (k : String) :
    dictContains l k = ((keysOf l).any fun x => x == k) := by
  induction l with
  | nil => rfl
  | cons p rest ih => simp [dictContains, keysOf, List.any_cons] at *; rw [ih]

theorem mem_keysOf_iff_contains (l : List (String × α)) (k : String) :
    k ∈ keysOf l ↔ dictContains l k = true := by
  rw [dictContains_eq_any_keys, List.any_eq_true]
  constructor
  · intro h; exact ⟨k, h, by simp⟩
  · rintro ⟨x, hx, hxk⟩
    have : x = k := by simpa using hxk
    exact this ▸ hx

theorem keysOf_dictSet (l : List (String × α)) (k : String) (v : α) :
    keysOf (dictSet l k v) = if dictContains l k then keysOf l else keysOf l ++ [k] := by
  unfold dictSet
  by_cases h : dictContains l k
  · simp only [h, if_true]
    exact keysOf_map_replace l k v
  · simp only [h, if_false, Bool.false_eq_true]
    simp [keysOf]

theorem mem_keysOf_dictSet (l : List (String × α)) (key : String) (v : α) (k : String) :
    k ∈ keysOf (dictSet l key v) ↔ (k = key ∨ k ∈ keysOf l) := by
  rw [keysOf_dictSet]
  by_cases h : dictContains l key
  · simp only [h, if_true]
    constructor
    · exact Or.inr
    · rintro (rfl | hk)
      · exact (mem_keysOf_iff_contains _ _).mpr h
      · exact hk
  · simp only [h, if_false, Bool.false_eq_true, List.mem_append, List.mem_singleton]
    tauto

theorem mem_keysOf_dictDel (l : List (String × α)) (e k : String) :
    k ∈ keysOf (dictDel l e) ↔ (k ∈ keysOf l ∧ k ≠ e) := by
  rw [keysOf_dictDel, List.mem_filter]
  simp

theorem nodup_keysOf_dictDel (l : List (String × α)) (k : String)
    (h : (keysOf l).Nodup) : (keysOf (dictDel l k)).Nodup := by
  rw [keysOf_dictDel]
  exact h.filter _

theorem nodup_keysOf_dictSet (l : List (String × α)) (k : String) (v : α)
    (h : (keysOf l).Nodup) : (keysOf (dictSet l k v)).Nodup := by
  rw [keysOf_dictSet]
  by_cases hc : dictContains l k
  · simpa [hc] using h
  · have hk : k ∉ keysOf l := fun hmem => hc ((mem_keysOf_iff_contains _ _).mp hmem)
    simp only [hc, if_false, Bool.false_eq_true, List.nodup_append]
    exact ⟨h, List.nodup_singleton k, by intro a ha hb; simp at hb; subst hb; exact hk ha⟩

theorem length_dictSet (l : List (String × α)) (k : String) (v : α) :
    (dictSet l k v).length = if dictContains l k then l.length else l.length + 1 := by
  unfold dictSet
  by_cases h : dictContains l k <;> simp [h]

theorem length_dictDel_succ_le (l : List (String × α)) (k : String)
    (h : dictContains l k = true) : (dictDel l k).length + 1 ≤ l.length := by
  induction l with
  | nil => simp [dictContains] at h
  | cons p rest ih =>
    cases hpk : (p.1 == k) with
    | true =>
      have hdel : dictDel (p :: rest) k = dictDel rest k := by
        simp [dictDel, List.filter_cons, hpk]
      rw [hdel]
      have hle : (dictDel rest k).length ≤ rest.length := List.length_filter_le _ _
      simp only [List.length_cons]
      omega
    | false =>
      have hrest : dictContains rest k = true := by
        simpa [dictContains, List.any_cons, hpk] using h
      have hdel : dictDel (p :: rest) k = p :: dictDel rest k := by
        simp [dictDel, List.filter_cons, hpk]
      rw [hdel]
      have := ih hrest
      simp only [List.length_cons]
      omega

theorem dictGet?_dictDel (l : List (String × α)) (k : String) :
    dictGet? (dictDel l k) k = none := by
  induction l with
  | nil => rfl
  | cons p rest ih =>
    cases hpk : (p.1 == k) with
    | true =>
      have hdel : dictDel (p :: rest) k = dictDel rest k := by
        simp [dictDel, List.filter_cons, hpk]
      rw [hdel]; exact ih
    | false =>
      have hdel : dictDel (p :: rest) k = p :: dictDel rest k := by
        simp [dictDel, List.filter_cons, hpk]
      rw [hdel]
      simp only [dictGet?, List.find?_cons, hpk]
      exact ih

theorem length_eq_length_keysOf (l : List (String × α)) :
    l.length = (keysOf l).length := by
  simp [keysOf]

theorem getCachedResult_inv (s : ResultCacheManager) (now : Nat) (sql : String)
    (h : CacheInv s) :
    CacheInv (getCachedResult s now sql).2 ∧
      (getCachedResult s now sql).2.max_cache_size = s.max_cache_size := by
  obtain ⟨hkeys, hnodup, hlen⟩ := h
  unfold getCachedResult
  cases hv : dictGet? s.cache (getCacheKey sql) with
  | none => exact ⟨⟨hkeys, hnodup, hlen⟩, by trivial⟩
  | some v =>
    cases ht : dictGet? s.cache_timestamps (getCacheKey sql) with
    | none => exact ⟨⟨hkeys, hnodup, hlen⟩, by trivial⟩
    | some t =>
      by_cases hexp : s.ttl_seconds < now - t
      · simp only [if_pos hexp]
        refine ⟨⟨?_, ?_, ?_⟩, by trivial⟩
        · rw [keysOf_dictDel, keysOf_dictDel, hkeys]
        · exact nodup_keysOf_dictDel _ _ hnodup
        · calc (dictDel s.cache (getCacheKey sql)).length
              ≤ s.cache.length := List.length_filter_le _ _
            _ ≤ s.max_cache_size := hlen
      · simp only [if_neg hexp]
        exact ⟨⟨hkeys, hnodup, hlen⟩, by trivial⟩

theorem cacheResult_inv (s : ResultCacheManager) (now : Nat) (sql : String)
    (result : CacheValue) (h : CacheInv s) :
    CacheInv (cacheResult s now sql result) ∧
      (cacheResult s now sql result).max_cache_size = s.max_cache_size := by
  obtain ⟨hkeys, hnodup, hlen⟩ := h
  unfold cacheResult
  by_cases hfull : s.max_cache_size ≤ s.cache.length
  · simp only [if_pos hfull]
    cases hmin : argminTimestamp s.cache_timestamps with
    | none => exact ⟨⟨hkeys, hnodup, hlen⟩, by trivial⟩
    | some oldest =>
      by_cases hcont : dictContains s.cache oldest
      · simp only [hcont, if_true]
        have hcontTs : dictContains s.cache_timestamps oldest = true := by
          rw [dictContains_eq_any_keys, ← hkeys, ← dictContains_eq_any_keys]
          exact hcont
        have hkeysDel : keysOf (dictDel s.cache oldest)
            = keysOf (dictDel s.cache_timestamps oldest) := by
          rw [keysOf_dictDel, keysOf_dictDel, hkeys]
        have hcontDel : dictContains (dictDel s.cache oldest) (getCacheKey sql)
            = dictContains (dictDel s.cache_timestamps oldest) (getCacheKey sql) := by
          rw [dictContains_eq_any_keys, dictContains_eq_any_keys, hkeysDel]
        refine ⟨⟨?_, ?_, ?_⟩, by trivial⟩
        · rw [keysOf_dictSet, keysOf_dictSet, hkeysDel, hcontDel]
        · exact nodup_keysOf_dictSet _ _ _ (nodup_keysOf_dictDel _ _ hnodup)
        · have hdel : (dictDel s.cache oldest).length + 1 ≤ s.cache.length :=
            length_dictDel_succ_le _ _ hcont
          rw [length_dictSet]
          by_cases hc2 : dictContains (dictDel s.cache oldest) (getCacheKey sql)
          · simp only [hc2, if_true]; omega
          · simp only [hc2, if_false, Bool.false_eq_true]; omega
      · simp only [hcont, Bool.false_eq_true, if_false]
        exact ⟨⟨hkeys, hnodup, hlen⟩, by trivial⟩
  · simp only [if_neg hfull]
    have hcontEq : dictContains s.cache (getCacheKey sql)
        = dictContains s.cache_timestamps (getCacheKey sql) := by
      rw [dictContains_eq_any_keys, dictContains_eq_any_keys, hkeys]
    refine ⟨⟨?_, ?_, ?_⟩, by trivial⟩
    · rw [keysOf_dictSet, keysOf_dictSet, hkeys, hcontEq]
    · exact nodup_keysOf_dictSet _ _ _ hnodup
    · rw [length_dictSet]
      by_cases hc : dictContains s.cache (getCacheKey sql)
      · simp only [hc, if_true]; omega
      · simp only [hc, if_false, Bool.false_eq_true]; omega

theorem applyCacheOp_inv (s : ResultCacheManager) (op : CacheOp) (h : CacheInv s) :
    CacheInv (applyCacheOp s op) ∧ (applyCacheOp s op).max_cache_size = s.max_cache_size := by
  cases op with
  | get now sql => exact getCachedResult_inv s now sql h
  | put now sql result => exact cacheResult_inv s now sql result h

theorem runCacheOps_inv (ops : List CacheOp) :
    ∀ s : ResultCacheManager, CacheInv s →
      CacheInv (runCacheOps s ops) ∧ (runCacheOps s ops).max_cache_size = s.max_cache_size := by
  induction ops with
  | nil => exact fun s h => ⟨h, rfl⟩
  | cons op rest ih =>
    intro s h
    obtain ⟨h1, h2⟩ := applyCacheOp_inv s op h
    obtain ⟨h3, h4⟩ := ih (applyCacheOp s op) h1
    exact ⟨h3, by rw [runCacheOps] at h4 ⊢; simp only [List.foldl_cons] at *; omega⟩

/--
**C10.**  Starting from a freshly constructed `ResultCacheManager`, after
any sequence of `get_cached_result`/`cache_result` operations the entry
dict and the timestamp dict hold exactly the same keys (here: equal key
lists, hence equal key sets), and the number of stored entries never
exceeds the configured `max_cache_size`.
-/
theorem resultCache_state_invariant (maxCacheSize ttlSeconds : Nat) (ops : List CacheOp) :
    keysOf (runCacheOps (initCache maxCacheSize ttlSeconds) ops).cache
      = keysOf (runCacheOps (initCache maxCacheSize ttlSeconds) ops).cache_timestamps ∧
    (runCacheOps (initCache maxCacheSize ttlSeconds) ops).cache.length ≤ maxCacheSize := by
  have hinit : CacheInv (initCache maxCacheSize ttlSeconds) :=
    ⟨rfl, List.nodup_nil, Nat.zero_le _⟩
  obtain ⟨⟨h1, _, h3⟩, h4⟩ := runCacheOps_inv ops (initCache maxCacheSize ttlSeconds) hinit
  exact ⟨h1, by rw [h4] at h3; exact h3⟩

/-! ### Eviction at capacity (C6) -/

theorem argminGo_spec (l : List (String × Nat)) :
    ∀ (bk : String) (bt : Nat),
      ∃ t, ((argminGo bk bt l = bk ∧ t = bt) ∨ (argminGo bk bt l, t) ∈ l) ∧
        t ≤ bt ∧ ∀ p ∈ l, t ≤ p.2 := by
  induction l with
  | nil =>
    intro bk bt
    exact ⟨bt, Or.inl ⟨rfl, rfl⟩, Nat.le_refl _, by simp⟩
  | cons q rest ih =>
    intro bk bt
    obtain ⟨k, t'⟩ := q
    by_cases hlt : t' < bt
    · obtain ⟨t, hmem, hle, hall⟩ := ih k t'
      have hgo : argminGo bk bt ((k, t') :: rest) = argminGo k t' rest := by
        simp [argminGo, hlt]
      refine ⟨t, ?_, ?_, ?_⟩
      · rw [hgo]
        rcases hmem with ⟨heq, rfl⟩ | hmem
        · exact Or.inr (by rw [heq]; exact List.mem_cons_self _ _)
        · exact Or.inr (List.mem_cons_of_mem _ hmem)
      · exact le_trans hle (le_of_lt hlt)
      · intro p hp
        rcases List.mem_cons.mp hp with rfl | hp'
        · exact hle
        · exact hall p hp'
    · obtain ⟨t, hmem, hle, hall⟩ := ih bk bt
      have hgo : argminGo bk bt ((k, t') :: rest) = argminGo bk bt rest := by
        simp [argminGo, hlt]
      refine ⟨t, ?_, hle, ?_⟩
      · rw [hgo]
        rcases hmem with ⟨heq, rfl⟩ | hmem
        · exact Or.inl ⟨heq, rfl⟩
        · exact Or.inr (List.mem_cons_of_mem _ hmem)
      · intro p hp
        rcases List.mem_cons.mp hp with rfl | hp'
        · exact le_trans hle (Nat.le_of_not_lt hlt)
        · exact hall p hp'

theorem argminTimestamp_spec (l : List (String × Nat)) (m : String)
    (h : argminTimestamp l = some m) :
    ∃ t, (m, t) ∈ l ∧ ∀ p ∈ l, t ≤ p.2 := by
  cases l with
  | nil => cases h
  | cons q rest =>
    obtain ⟨k0, t0⟩ := q
    have hm : argminGo k0 t0 rest = m := by
      simpa [argminTimestamp] using h
    obtain ⟨t, hmem, hle, hall⟩ := argminGo_spec rest k0 t0
    rcases hmem with ⟨heq, rfl⟩ | hmem
    · refine ⟨t, ?_, ?_⟩
      · rw [← hm, heq]; exact List.mem_cons_self _ _
      · intro p hp
        rcases List.mem_cons.mp hp with rfl | hp'
        · exact Nat.le_refl _
        · exact hall p hp'
    · refine ⟨t, ?_, ?_⟩
      · rw [← hm]; exact List.mem_cons_of_mem _ hmem
      · intro p hp
        rcases List.mem_cons.mp hp with rfl | hp'
        · exact hle
        · exact hall p hp'

/--
**C6.**  When `cache_result` runs with the cache at (or beyond) its
configured positive capacity, exactly one entry is evicted before the new
binding is stored: an entry whose insertion timestamp is minimal among
all stored timestamps.  The keys stored afterwards are exactly the new
key plus all previous keys other than the evicted one — no other entry is
removed.
-/
theorem cacheResult_at_capacity (s : ResultCacheManager) (now : Nat) (sql : String)
    (result : CacheValue)
    (hkeys : keysOf s.cache = keysOf s.cache_timestamps)
    (hfull : s.max_cache_size ≤ s.cache.length)
    (hne : s.cache ≠ []) :
    ∃ evicted t,
      (evicted, t) ∈ s.cache_timestamps ∧
      (∀ p ∈ s.cache_timestamps, t ≤ p.2) ∧
      ∀ k, k ∈ keysOf (cacheResult s now sql result).cache ↔
        (k = getCacheKey sql ∨ (k ∈ keysOf s.cache ∧ k ≠ evicted)) := by
  have htsne : s.cache_timestamps ≠ [] := by
    intro hts
    apply hne
    have : keysOf s.cache = [] := by rw [hkeys, hts]; rfl
    cases hc : s.cache with
    | nil => rfl
    | cons p r => rw [hc] at this; simp [keysOf] at this
  obtain ⟨q, rest, hts⟩ : ∃ q rest, s.cache_timestamps = q :: rest := by
    cases hts : s.cache_timestamps with
    | nil => exact absurd hts htsne
    | cons q rest => exact ⟨q, rest, rfl⟩
  have hmin : ∃ m, argminTimestamp s.cache_timestamps = some m := by
    rw [hts]
    obtain ⟨k0, t0⟩ := q
    exact ⟨argminGo k0 t0 rest, rfl⟩
  obtain ⟨m, hm⟩ := hmin
  obtain ⟨t, htmem, htall⟩ := argminTimestamp_spec _ m hm
  have hmkeys : m ∈ keysOf s.cache := by
    rw [hkeys]
    exact List.mem_map_of_mem Prod.fst htmem
  have hcont : dictContains s.cache m = true := (mem_keysOf_iff_contains _ _).mp hmkeys
  have hstate : (cacheResult s now sql result).cache
      = dictSet (dictDel s.cache m) (getCacheKey sql) result := by
    unfold cacheResult
    rw [if_pos hfull, hm]
    simp only [hcont, if_true]
  refine ⟨m, t, htmem, htall, ?_⟩
  intro k
  rw [hstate, mem_keysOf_dictSet, mem_keysOf_dictDel]

/-- Witness for C6 on a concrete full cache: capacity 2, entries `a`
(timestamp 5) and `b` (timestamp 9), inserting a third query. -/
theorem cacheResult_at_capacity_witness :
    keysOf (ResultCacheManager.mk [("a", []), ("b", [])] [("a", 5), ("b", 9)] 2 3600).cache
        = keysOf (ResultCacheManager.mk [("a", []), ("b", [])] [("a", 5), ("b", 9)] 2 3600).cache_timestamps ∧
    ∃ evicted t,
      (evicted, t) ∈ (ResultCacheManager.mk [("a", []), ("b", [])] [("a", 5), ("b", 9)] 2 3600).cache_timestamps ∧
      (∀ p ∈ (ResultCacheManager.mk [("a", []), ("b", [])] [("a", 5), ("b", 9)] 2 3600).cache_timestamps, t ≤ p.2) ∧
      ∀ k, k ∈ keysOf (cacheResult (ResultCacheManager.mk [("a", []), ("b", [])] [("a", 5), ("b", 9)] 2 3600) 10 "c" []).cache ↔
        (k = getCacheKey "c" ∨
          (k ∈ keysOf (ResultCacheManager.mk [("a", []), ("b", [])] [("a", 5), ("b", 9)] 2 3600).cache ∧ k ≠ evicted)) :=
  ⟨by decide,
    cacheResult_at_capacity (ResultCacheManager.mk [("a", []), ("b", [])] [("a", 5), ("b", 9)] 2 3600)
      10 "c" [] (by decide) (by decide) (by decide)⟩

/-! ### TTL expiry on lookup (C5) -/

/--
**C5, counterexample.**  The claim says an expired entry "still
physically exists in the underlying store after the lookup, being removed
only when a later insert triggers cleanup".  In the code the expiry check
of `get_cached_result` deletes the entry from both dicts during the
lookup itself: with TTL 10, an entry inserted at time 0 and looked up at
time 20 is gone from both maps immediately after the `Get`, with no
insert having happened.
-/
theorem cacheGet_expiry_counterexample :
    (getCachedResult (ResultCacheManager.mk [("q", [])] [("q", 0)] 1000 10) 20 "q").1 = none ∧
    (getCachedResult (ResultCacheManager.mk [("q", [])] [("q", 0)] 1000 10) 20 "q").2.cache = [] ∧
    (getCachedResult (ResultCacheManager.mk [("q", [])] [("q", 0)] 1000 10) 20 "q").2.cache_timestamps = [] := by
  refine ⟨by decide, by decide, by decide⟩

/--
**C5, amended.**  For every cached entry whose age exceeds the TTL, a
lookup of that SQL returns "absent" — and the expired entry is eagerly
deleted from both the entry dict and the timestamp dict during that very
lookup (not retained until the next insert).
-/
theorem getCachedResult_expired (s : ResultCacheManager) (now : Nat) (sql : String)
    (v : CacheValue) (t : Nat)
    (hv : dictGet? s.cache (getCacheKey sql) = some v)
    (ht : dictGet? s.cache_timestamps (getCacheKey sql) = some t)
    (hexp : s.ttl_seconds < now - t) :
    (getCachedResult s now sql).1 = none ∧
    dictGet? (getCachedResult s now sql).2.cache (getCacheKey sql) = none ∧
    dictGet? (getCachedResult s now sql).2.cache_timestamps (getCacheKey sql) = none := by
  have hres : getCachedResult s now sql =
      (none, { s with cache := dictDel s.cache (getCacheKey sql),
                      cache_timestamps := dictDel s.cache_timestamps (getCacheKey sql) }) := by
    unfold getCachedResult
    rw [hv, ht]
    exact if_pos hexp
  rw [hres]
  exact ⟨rfl, dictGet?_dictDel _ _, dictGet?_dictDel _ _⟩

/-- Witness for the amended C5 at the concrete expired entry used in the
counterexample. -/
theorem getCachedResult_expired_witness :
    (getCachedResult (ResultCacheManager.mk [("q", [])] [("q", 0)] 1000 10) 20 "q").1 = none ∧
    dictGet? (getCachedResult (ResultCacheManager.mk [("q", [])] [("q", 0)] 1000 10) 20 "q").2.cache
        (getCacheKey "q") = none ∧
    dictGet? (getCachedResult (ResultCacheManager.mk [("q", [])] [("q", 0)] 1000 10) 20 "q").2.cache_timestamps
        (getCacheKey "q") = none :=
  getCachedResult_expired (ResultCacheManager.mk [("q", [])] [("q", 0)] 1000 10) 20 "q" [] 0
    (by decide) (by decide) (by decide)

/--
**C8.**  On a catalog holding exactly `ORDERS(customer_id)` (non-primary
key) and `CUSTOMERS(id)`, inference produces exactly one relationship:
`ORDERS.customer_id -> CUSTOMERS.id`, many-to-one, `is_enforced=false`.
-/
theorem inferRelationships_orders_customers :
    inferRelationships
        [Table.mk "ORDERS" [Column.mk "customer_id" "NUMBER" false],
         Table.mk "CUSTOMERS" [Column.mk "id" "NUMBER" false]]
      = [{ source_table := "ORDERS", target_table := "CUSTOMERS",
           source_column := "customer_id", target_column := "id",
           relationship_type := RelationshipType.many_to_one,
           name := none,
           description := "Inferred from naming pattern: customer_id",
           is_enforced := false }] := by
  decide

/--
**C7, counterexample.**  The claim's ordered variant list includes a
`_FACT` suffix, but `_infer_relationships` in src/schema/discovery.py
tries `_MASTER`, never `_FACT`: with tables `SHIPMENTS(order_id)` (non-
primary key) and `ORDER_FACT(id)` (primary key) — where `ORDER_FACT` is
exactly the stripped upper-cased column name plus `_FACT` — the claim
predicts the relationship `SHIPMENTS.order_id -> ORDER_FACT.id`, yet
inference produces nothing.
-/
theorem inferRelationships_fact_counterexample :
    (tableByName
        [Table.mk "SHIPMENTS" [Column.mk "order_id" "NUMBER" false],
         Table.mk "ORDER_FACT" [Column.mk "id" "NUMBER" true]]
        (pyUpper "order".data ++ "_FACT".data)).isSome = true ∧
    inferRelationships
        [Table.mk "SHIPMENTS" [Column.mk "order_id" "NUMBER" false],
         Table.mk "ORDER_FACT" [Column.mk "id" "NUMBER" true]]
      = [] := by
  refine ⟨by decide, by decide⟩

/--
**C7, amended.**  For every non-primary-key column whose (uppercased)
name ends in `_id`, inference strips the suffix and tries, in this fixed
order: the stripped name, its plural (`+S`), its singular (strip a
trailing uppercase `S`), `_DIM`, `_MASTER` — there is no `_FACT` variant.
The first variant naming an existing table wins, and the target column is
the first column of that table that is a primary key or is named
`id`/`<variant>_id` (case-insensitively); the resulting relationship is
many-to-one with `is_enforced=false` and appears in the inferred list.
-/
theorem inferRelationships_sound (tables : List Table) (t : Table) (c : Column)
    (ht : t ∈ tables) (hc : c ∈ t.columns)
    (hend : strEndsWith (pyUpper c.name.data) "_ID".data = true)
    (hnpk : c.is_primary_key = false)
    (v : List Char)
    (hv : findFirstVariation tables (targetVariations c.name.data) = some v)
    (tt : Table) (htt : tableByName tables v = some tt)
    (tc : Column) (htc : findTargetColumn tt v = some tc) :
    ({ source_table := t.name, target_table := tt.name,
       source_column := c.name, target_column := tc.name,
       relationship_type := RelationshipType.many_to_one,
       name := none,
       description := "Inferred from naming pattern: " ++ c.name,
       is_enforced := false } : Relationship) ∈ inferRelationships tables := by
  have hcol : inferForColumn tables t c =
      some { source_table := t.name, target_table := tt.name,
             source_column := c.name, target_column := tc.name,
             relationship_type := RelationshipType.many_to_one,
             name := none,
             description := "Inferred from naming pattern: " ++ c.name,
             is_enforced := false } := by
    unfold inferForColumn
    rw [hend, hnpk]
    simp only [Bool.not_false, Bool.and_self, if_true]
    simp only [hv, htt, htc]
  unfold inferRelationships
  rw [List.mem_flatMap]
  exact ⟨t, ht, List.mem_filterMap.mpr ⟨c, hc, hcol⟩⟩

/-- Witness for the amended C7, exercising the `_MASTER` variant:
`LINES(product_id)` with `PRODUCT_MASTER(id)`. -/
theorem inferRelationships_sound_witness :
    ({ source_table := "LINES", target_table := "PRODUCT_MASTER",
       source_column := "product_id", target_column := "id",
       relationship_type := RelationshipType.many_to_one,
       name := none,
       description := "Inferred from naming pattern: product_id",
       is_enforced := false } : Relationship) ∈
      inferRelationships
        [Table.mk "LINES" [Column.mk "product_id" "NUMBER" false],
         Table.mk "PRODUCT_MASTER" [Column.mk "id" "NUMBER" false]] :=
  inferRelationships_sound
    [Table.mk "LINES" [Column.mk "product_id" "NUMBER" false],
     Table.mk "PRODUCT_MASTER" [Column.mk "id" "NUMBER" false]]
    (Table.mk "LINES" [Column.mk "product_id" "NUMBER" false])
    (Column.mk "product_id" "NUMBER" false)
    (by decide) (by decide) (by decide) (by decide)
    "PRODUCT_MASTER".data (by decide)
    (Table.mk "PRODUCT_MASTER" [Column.mk "id" "NUMBER" false]) (by decide)
    (Column.mk "id" "NUMBER" false) (by decide)

/-! ### The repair budget (C2) -/

/--
**C2, counterexample.**  A run in which every call to the query executor
fails (the executor literal below always fails) but the repair attempt's
`nl_to_sql` generation also fails makes exactly ONE execution attempt,
not the claimed two, before terminating with status `error`.
-/
theorem workflow_repair_budget_counterexample :
    (completeBIWorkflow (ContextResult.mk "success" "CTX")
        (GenResult.mk "success" "SELECT 1") none
        (fun _ _ => ExecOutcome.mk false [] "connection-error") true).execCalls
      = ["SELECT 1"] ∧
    (completeBIWorkflow (ContextResult.mk "success" "CTX")
        (GenResult.mk "success" "SELECT 1") none
        (fun _ _ => ExecOutcome.mk false [] "connection-error") true).status
      = "error" := by
  refine ⟨by decide, by decide⟩

/--
**C2, amended.**  When every executor call fails the run always
terminates with status `error` and performs at most 2 execution attempts
(never a third); it performs exactly 2 — the initial execution plus one
re-execution after the single repair attempt — provided context
resolution and SQL generation succeeded and the repair attempt produced a
corrected SQL.
-/
theorem workflow_repair_budget (ctx : ContextResult) (gen : GenResult)
    (fixNl : Option String) (exec : Nat → String → ExecOutcome)
    (includeAnalysis : Bool)
    (hexec : ∀ n s, (exec n s).success = false) :
    (completeBIWorkflow ctx gen fixNl exec includeAnalysis).status = "error" ∧
    (completeBIWorkflow ctx gen fixNl exec includeAnalysis).execCalls.length ≤ 2 ∧
    (ctx.status = "success" → gen.status = "success" → fixNl.isSome = true →
      (completeBIWorkflow ctx gen fixNl exec includeAnalysis).execCalls.length = 2) := by
  by_cases hctx : ctx.status = "success"
  · by_cases hgen : gen.status = "success"
    · cases hfix : fixNl with
      | none =>
        have hrun : completeBIWorkflow ctx gen none exec includeAnalysis =
            { status := "error", message := "SQL execution failed after retry",
              sql_query := none, results := [],
              log := ["schema_context", "sql_generation", "sql_execution",
                      "sql_fix_attempt"],
              execCalls := [gen.final_sql] } := by
          unfold completeBIWorkflow
          rw [if_pos hctx, if_pos hgen, hexec 0 gen.final_sql]
          simp [fixSql]
        rw [hrun]
        refine ⟨rfl, by simp, ?_⟩
        intro _ _ hsome
        simp at hsome
      | some fixedSql =>
        have hrun : completeBIWorkflow ctx gen (some fixedSql) exec includeAnalysis =
            { status := "error", message := "SQL execution failed after retry",
              sql_query := none, results := [],
              log := ["schema_context", "sql_generation", "sql_execution",
                      "sql_fix_attempt", "sql_execution_retry"],
              execCalls := [gen.final_sql, fixedSql] } := by
          unfold completeBIWorkflow
          rw [if_pos hctx, if_pos hgen, hexec 0 gen.final_sql]
          simp [fixSql, hexec 1 fixedSql]
        rw [hrun]
        exact ⟨rfl, by simp, fun _ _ _ => by simp⟩
    · have hrun : completeBIWorkflow ctx gen fixNl exec includeAnalysis =
          { status := "error", message := "Failed to generate SQL", sql_query := none,
            results := [], log := ["schema_context", "sql_generation"],
            execCalls := [] } := by
        unfold completeBIWorkflow
        rw [if_pos hctx, if_neg hgen]
      rw [hrun]
      exact ⟨rfl, by simp, fun _ hg _ => absurd hg hgen⟩
  · have hrun : completeBIWorkflow ctx gen fixNl exec includeAnalysis =
        { status := "error", message := "Failed to get schema context",
          sql_query := none, results := [], log := ["schema_context"],
          execCalls := [] } := by
      unfold completeBIWorkflow
      rw [if_neg hctx]
    rw [hrun]
    exact ⟨rfl, by simp, fun hc _ _ => absurd hc hctx⟩

/-- Witness for the amended C2: an always-failing executor with a
successful repair generation gives status `error` after exactly 2
execution attempts. -/
theorem workflow_repair_budget_witness :
    (completeBIWorkflow (ContextResult.mk "success" "CTX")
        (GenResult.mk "success" "SELECT 1") (some "SELECT 2")
        (fun _ _ => ExecOutcome.mk false [] "boom") true).status = "error" ∧
    (completeBIWorkflow (ContextResult.mk "success" "CTX")
        (GenResult.mk "success" "SELECT 1") (some "SELECT 2")
        (fun _ _ => ExecOutcome.mk false [] "boom") true).execCalls.length = 2 :=
  ⟨(workflow_repair_budget (ContextResult.mk "success" "CTX")
      (GenResult.mk "success" "SELECT 1") (some "SELECT 2")
      (fun _ _ => ExecOutcome.mk false [] "boom") true (fun _ _ => rfl)).1,
   (workflow_repair_budget (ContextResult.mk "success" "CTX")
      (GenResult.mk "success" "SELECT 1") (some "SELECT 2")
      (fun _ _ => ExecOutcome.mk false [] "boom") true (fun _ _ => rfl)).2.2
      rfl rfl rfl⟩

/--
**C3.**  In the repair cycle, `_fix_sql` runs the security validator on
the repaired SQL and records its verdict, but its `status` is `success`
regardless, and `_complete_bi_workflow` re-executes the repaired SQL
without consulting that verdict: for the repaired SQL
`DROP TABLE USERS`, which the validator marks `is_secure=false`, the SQL
IS submitted to the query executor and the run reports success with it as
the final SQL — contradicting the claim (and the enforcement that
`_generate_sql` applies on the initial path).
-/
theorem workflow_executes_insecure_repair :
    (fixSql (some "DROP TABLE USERS")).security_validation
        = some (securityValidatorCheck "DROP TABLE USERS") ∧
    (securityValidatorCheck "DROP TABLE USERS").is_secure = false ∧
    (fixSql (some "DROP TABLE USERS")).status = "success" ∧
    insecureRepairRun.execCalls = ["SELECT * FROM ORDERS", "DROP TABLE USERS"] ∧
    insecureRepairRun.status = "success" ∧
    insecureRepairRun.sql_query = some "DROP TABLE USERS" := by
  refine ⟨by decide, by decide, by decide, by decide, by decide, by decide⟩

/--
**C4, counterexample.**  With an empty (never-built) catalog, the
schema-context step reports SUCCESS — discovery's "No tables found"
result carries no error status — and the workflow goes on to invoke the
SQL-generation step (`sql_generation` is logged), contradicting the
claimed fail-fast.
-/
theorem workflow_empty_catalog_counterexample :
    (schemaAgentGetContextEmptyCatalog "total sales").status = "success" ∧
    "sql_generation" ∈
      (completeBIWorkflow (schemaAgentGetContextEmptyCatalog "total sales")
        (GenResult.mk "success" "SELECT 1") none
        (fun _ _ => ExecOutcome.mk false [] "e") true).log := by
  refine ⟨by decide, by decide⟩

/--
**C4, amended.**  The fail-fast gate exists but keys on the context
step's status, not on catalog emptiness: whenever the schema-context step
reports non-success the run ends in `error` and the SQL-generation step
is never invoked; with an empty catalog, however, the context step
reports success (for any non-empty question) and SQL generation IS
invoked.
-/
theorem workflow_context_gate (q : String) (hq : q ≠ "")
    (ctx : ContextResult) (hctx : ctx.status ≠ "success")
    (gen : GenResult) (fixNl : Option String) (exec : Nat → String → ExecOutcome)
    (includeAnalysis : Bool) :
    (schemaAgentGetContextEmptyCatalog q).status = "success" ∧
    "sql_generation" ∈
      (completeBIWorkflow (schemaAgentGetContextEmptyCatalog q) gen fixNl exec
        includeAnalysis).log ∧
    (completeBIWorkflow ctx gen fixNl exec includeAnalysis).status = "error" ∧
    "sql_generation" ∉
      (completeBIWorkflow ctx gen fixNl exec includeAnalysis).log := by
  have hempty : schemaAgentGetContextEmptyCatalog q =
      { status := "success", context := emptyCatalogContext } := by
    unfold schemaAgentGetContextEmptyCatalog
    rw [if_neg hq]
    rfl
  have hfail : completeBIWorkflow ctx gen fixNl exec includeAnalysis =
      { status := "error", message := "Failed to get schema context",
        sql_query := none, results := [], log := ["schema_context"],
        execCalls := [] } := by
    unfold completeBIWorkflow
    rw [if_neg hctx]
  refine ⟨by rw [hempty], ?_, by rw [hfail], by rw [hfail]; simp⟩
  have hgate : (completeBIWorkflow (schemaAgentGetContextEmptyCatalog q) gen fixNl exec
      includeAnalysis) = completeBIWorkflow
        { status := "success", context := emptyCatalogContext } gen fixNl exec
        includeAnalysis := by rw [hempty]
  rw [hgate]
  unfold completeBIWorkflow
  by_cases hgen : gen.status = "success"
  · rw [if_pos rfl, if_pos hgen]
    by_cases he1 : (exec 0 gen.final_sql).success
    · simp [he1]
    · simp only [he1, Bool.false_eq_true, if_false]
      by_cases hfx : (fixSql fixNl).status = "success"
      · rw [if_pos hfx]
        cases hc : (fixSql fixNl).corrected_sql with
        | none => simp
        | some fixedSql =>
          by_cases he2 : (exec 1 fixedSql).success
          · simp [he2]
          · simp [he2]
      · rw [if_neg hfx]
        simp
  · rw [if_pos rfl, if_neg hgen]
    simp

/-- Witness for the amended C4 at a concrete question and a concrete
failed context step. -/
theorem workflow_context_gate_witness :
    (schemaAgentGetContextEmptyCatalog "total sales").status = "success" ∧
    "sql_generation" ∈
      (completeBIWorkflow (schemaAgentGetContextEmptyCatalog "total sales")
        (GenResult.mk "success" "SELECT 1") none
        (fun _ _ => ExecOutcome.mk true [] "") true).log ∧
    (completeBIWorkflow (ContextResult.mk "error" "") (GenResult.mk "success" "SELECT 1")
        none (fun _ _ => ExecOutcome.mk true [] "") true).status = "error" ∧
    "sql_generation" ∉
      (completeBIWorkflow (ContextResult.mk "error" "") (GenResult.mk "success" "SELECT 1")
        none (fun _ _ => ExecOutcome.mk true [] "") true).log :=
  workflow_context_gate "total sales" (by decide)
    (ContextResult.mk "error" "") (by decide)
    (GenResult.mk "success" "SELECT 1") none
    (fun _ _ => ExecOutcome.mk true [] "") true

end GenBI
